import Mathlib

/-!
# Verification of the AI Job Market Explorer dashboard (`hello.py`)

Shallow embedding of the data-handling core of `src/hello.py`:

* `load_data` (column completion, salary cleaning, exception fallback),
* `get_filtered_data` (experience / location / minimum-salary filters),
* the dashboard consumer atoms and their empty-data guards,
* the `top_job_titles_table` top-10 extraction,

together with the spec's stock-market analytics core (Rolling Statistics
Engine, Change & Ranking Engine), which is described by the specification
but whose script is not part of the sources; those parts are modelled from
the spec and marked as such.

Pandas dataframes are modelled as Lean lists of rows; numeric cells are
`Int`/`ℚ`; nullable cells are `Option`; Python strings are Lean `String`.
-/

namespace AIJobs

/-- A row of the loaded jobs dataframe after `load_data`, with the seven
required columns of `hello.py` as typed fields. -/
structure Row where
  job_id : String
  job_title : String
  salary_usd : Int
  experience_level : String
  employment_type : String
  company_location : String
  company_size : String
deriving DecidableEq, Repr

/-- The character sequence of the separator `" - "` used by the experience
selectbox labels (`f"{code} - {label}"`). -/
def sepChars : List Char := [' ', '-', ' ']

/-- Python's `" - " in s` on the character list of `s`: does `" - "` occur
as a contiguous substring? -/
def hasSepL : List Char → Bool
  | [] => false
  | c :: cs => sepChars.isPrefixOf (c :: cs) || hasSepL cs

/-- Python's `s.split(" - ")[0]` on the character list of `s`: the text
before the first occurrence of `" - "` (the whole string if none). -/
def beforeSepL : List Char → List Char
  | [] => []
  | c :: cs => if sepChars.isPrefixOf (c :: cs) then [] else c :: beforeSepL cs

/-- `" - " in experience` from `get_filtered_data`. -/
def hasSep (s : String) : Bool := hasSepL s.toList

/-- `experience.split(" - ")[0]` from `get_filtered_data`. -/
def beforeSep (s : String) : String := ⟨beforeSepL s.toList⟩

/-- The experience-level code that `get_filtered_data` filters on:
`some code` exactly when `experience != "All" and " - " in experience`
(in which case `code = experience.split(" - ")[0]`), and `none` when no
experience filtering is applied. -/
def expSelCode (experience : String) : Option String :=
  if experience ≠ "All" ∧ hasSep experience then some (beforeSep experience) else none

/-- `get_filtered_data(experience, location, min_salary)` from `hello.py`
(lines 205–225), applied to the dataframe `df` produced by `load_data`:
guard on an empty frame, then the three successive boolean-mask filters.
The `df.copy()` is the identity on the pure value (its aliasing content is
modelled separately by the heap embedding below). -/
def get_filtered_data (df : List Row) (experience location : String)
    (min_salary : Int) : List Row :=
  if df.isEmpty then []
  else
    let f1 : List Row :=
      if experience ≠ "All" ∧ hasSep experience then
        df.filter (fun r => r.experience_level == beforeSep experience)
      else df
    let f2 : List Row :=
      if location ≠ "All" then f1.filter (fun r => r.company_location == location)
      else f1
    f2.filter (fun r : Row => decide (min_salary ≤ r.salary_usd))

/-- The single conjunctive row predicate that the three filters of
`get_filtered_data` amount to. -/
def rowPred (experience location : String) (min_salary : Int) (r : Row) : Bool :=
  (match expSelCode experience with
   | some code => r.experience_level == code
   | none => true)
  && (location == "All" || r.company_location == location)
  && decide (min_salary ≤ r.salary_usd)

example : expSelCode "All" = none := by decide
example : expSelCode "EN - Entry Level" = some "EN" := by decide
example : expSelCode "EN" = none := by decide
example : expSelCode "SE - Senior Level" = some "SE" := by decide

lemma filter_filter_bool (p q : Row → Bool) (l : List Row) :
    (l.filter p).filter q = l.filter (fun r => p r && q r) := by
  induction l with
  | nil => rfl
  | cons a l ih =>
    by_cases hp : p a <;> by_cases hq : q a <;>
      simp [List.filter_cons, hp, hq, ih]

/-- `get_filtered_data` equals one pass of the conjunctive predicate. -/
lemma get_filtered_data_eq_filter (df : List Row) (e l : String) (m : Int) :
    get_filtered_data df e l m = df.filter (rowPred e l m) := by
  cases hdf : df.isEmpty with
  | true =>
    have : df = [] := List.isEmpty_iff.mp hdf
    subst this
    rfl
  | false =>
    unfold get_filtered_data
    rw [hdf]
    simp only [Bool.false_eq_true, if_false]
    by_cases he : e ≠ "All" ∧ hasSep e
    case pos =>
      have hc : expSelCode e = some (beforeSep e) := by
        unfold expSelCode; rw [if_pos he]
      by_cases hl : l = "All"
      · subst hl
        rw [if_pos he, if_neg (fun h => h rfl), filter_filter_bool]
        refine List.filter_congr fun r _ => ?_
        simp [rowPred, hc]
      · have hb : (l == "All") = false := by
          cases hbe : (l == "All")
          · rfl
          · exact absurd (by simpa using hbe) hl
        rw [if_pos he, if_pos hl, filter_filter_bool, filter_filter_bool]
        refine List.filter_congr fun r _ => ?_
        simp [rowPred, hc, hb, Bool.and_assoc]
    case neg =>
      have hc : expSelCode e = none := by
        unfold expSelCode; rw [if_neg he]
      by_cases hl : l = "All"
      · subst hl
        rw [if_neg he, if_neg (fun h => h rfl)]
        refine List.filter_congr fun r _ => ?_
        simp [rowPred, hc]
      · have hb : (l == "All") = false := by
          cases hbe : (l == "All")
          · rfl
          · exact absurd (by simpa using hbe) hl
        rw [if_neg he, if_pos hl, filter_filter_bool]
        refine List.filter_congr fun r _ => ?_
        simp [rowPred, hc, hb]

/-- A small concrete dataset used to instantiate the theorems below. -/
def sampleRow1 : Row :=
  ⟨"AI0001", "ML Engineer", 120000, "SE", "FT", "United States", "M"⟩

def sampleRow2 : Row :=
  ⟨"AI0002", "Data Scientist", 90000, "EN", "FT", "Germany", "S"⟩

def sampleDf : List Row := [sampleRow1, sampleRow2]

/-- C1: for every dataset, filter selections and minimum-salary threshold,
`get_filtered_data` returns exactly the rows of the loaded dataset that
satisfy every active predicate — experience-level equality against the
selected code (`expSelCode`, `none` when the selection is `"All"`), location
equality unless the location selection is `"All"`, and
`salary_usd ≥ min_salary` with the bound inclusive.  The filter-equation
form makes both directions explicit: no non-matching row is included and no
matching row is excluded (multiplicities preserved). -/
theorem get_filtered_data_exact_subset (df : List Row) (e l : String) (m : Int) :
    get_filtered_data df e l m = df.filter (rowPred e l m) ∧
      ∀ r : Row, r ∈ get_filtered_data df e l m ↔ r ∈ df ∧ rowPred e l m r = true := by
  refine ⟨get_filtered_data_eq_filter df e l m, fun r => ?_⟩
  rw [get_filtered_data_eq_filter df e l m, List.mem_filter]

theorem get_filtered_data_exact_subset_witness :
    get_filtered_data sampleDf "SE - Senior Level" "All" 100000 =
      sampleDf.filter (rowPred "SE - Senior Level" "All" 100000) ∧
      (sampleRow1 ∈ get_filtered_data sampleDf "SE - Senior Level" "All" 100000 ↔
        sampleRow1 ∈ sampleDf ∧
          rowPred "SE - Senior Level" "All" 100000 sampleRow1 = true) :=
  ⟨(get_filtered_data_exact_subset sampleDf "SE - Senior Level" "All" 100000).1,
   (get_filtered_data_exact_subset sampleDf "SE - Senior Level" "All" 100000).2
     sampleRow1⟩

/-- C9: the salary filter is antitone in its threshold, and filtering never
creates rows: for `a ≤ b` the rows surviving threshold `b` form a sublist
(hence a sub-multiset) of those surviving threshold `a`, and any filtered
result is a sublist of the loaded dataset. -/
theorem get_filtered_data_salary_antitone (df : List Row) (e l : String)
    {a b : Int} (hab : a ≤ b) :
    (get_filtered_data df e l b).Sublist (get_filtered_data df e l a) ∧
      (get_filtered_data df e l a).Sublist df := by
  rw [get_filtered_data_eq_filter df e l a, get_filtered_data_eq_filter df e l b]
  refine ⟨?_, List.filter_sublist df⟩
  apply List.monotone_filter_right
  intro r hr
  unfold rowPred at hr ⊢
  simp only [Bool.and_eq_true, decide_eq_true_eq] at hr ⊢
  exact ⟨⟨hr.1.1, hr.1.2⟩, le_trans hab hr.2⟩

theorem get_filtered_data_salary_antitone_witness :
    (get_filtered_data sampleDf "All" "All" 100000).Sublist
        (get_filtered_data sampleDf "All" "All" 50000) ∧
      (get_filtered_data sampleDf "All" "All" 50000).Sublist sampleDf :=
  get_filtered_data_salary_antitone sampleDf "All" "All"
    (by decide : (50000 : Int) ≤ 100000)

/-- C10: `get_filtered_data` applies experience filtering only when the
experience argument differs from `"All"` and contains the substring
`" - "`; for any argument without `" - "` (bare codes such as `"EN"`
included) no experience filtering happens at all, and when filtering does
happen the text before the first `" - "` is the level code used for the
equality match. -/
theorem experience_filter_only_with_sep (df : List Row) (e l : String) (m : Int) :
    (hasSep e = false → get_filtered_data df e l m = get_filtered_data df "All" l m)
    ∧ (∀ code : String,
        expSelCode e = some code ↔ e ≠ "All" ∧ hasSep e = true ∧ code = beforeSep e)
    ∧ (e ≠ "All" ∧ hasSep e = true →
        get_filtered_data df e l m =
          df.filter (fun r =>
            (r.experience_level == beforeSep e)
            && (l == "All" || r.company_location == l)
            && decide (m ≤ r.salary_usd))) := by
  refine ⟨fun hns => ?_, fun code => ?_, fun hyes => ?_⟩
  · rw [get_filtered_data_eq_filter df e l m, get_filtered_data_eq_filter df "All" l m]
    have hc : expSelCode e = none := by
      unfold expSelCode
      rw [if_neg]
      rintro ⟨-, hsep⟩
      rw [hns] at hsep
      exact Bool.false_ne_true hsep
    refine List.filter_congr fun r _ => ?_
    unfold rowPred
    rw [hc]
    rfl
  · constructor
    · intro h
      unfold expSelCode at h
      by_cases hcond : e ≠ "All" ∧ hasSep e
      · rw [if_pos hcond] at h
        exact ⟨hcond.1, hcond.2, (Option.some_inj.mp h).symm⟩
      · rw [if_neg hcond] at h
        exact absurd h (Option.noConfusion)
    · rintro ⟨hne, hsep, rfl⟩
      unfold expSelCode
      rw [if_pos ⟨hne, hsep⟩]
  · have hc : expSelCode e = some (beforeSep e) := by
      unfold expSelCode
      rw [if_pos hyes]
    rw [get_filtered_data_eq_filter df e l m]
    refine List.filter_congr fun r _ => ?_
    unfold rowPred
    rw [hc]

theorem experience_filter_only_with_sep_witness :
    get_filtered_data sampleDf "EN" "All" 0 = get_filtered_data sampleDf "All" "All" 0 ∧
      get_filtered_data sampleDf "EN - Entry Level" "All" 0 =
        sampleDf.filter (fun r =>
          (r.experience_level == "EN")
          && ("All" == "All" || r.company_location == "All")
          && decide ((0 : Int) ≤ r.salary_usd)) :=
  ⟨(experience_filter_only_with_sep sampleDf "EN" "All" 0).1 (by decide),
   (experience_filter_only_with_sep sampleDf "EN - Entry Level" "All" 0).2.2
     ⟨by decide, by decide⟩⟩

/-! ## Consumer atoms of the dashboard

Each `@workflow.atom()` consumer of `hello.py` calls `get_filtered_data`,
guards on an empty frame, and otherwise aggregates.  Chart/figure styling
is presentation-only (out of the spec's scope); the embedding keeps the
guard and the aggregated data each atom computes. -/

/-- One aggregated row of the `top_job_titles_table` output:
`('Job Title', 'Total Postings', 'Avg Salary')`. -/
structure JobStat where
  title : String
  totalPostings : Nat
  avgSalary : ℚ
deriving DecidableEq, Repr

/-- What a consumer atom renders. -/
inductive Render where
  | txt (s : String)
  | stats (totalJobs : Nat) (avgSalary : ℚ) (countries : Nat)
  | chart (kind : String) (data : List (String × ℚ))
  | hist (kind : String) (values : List Int)
  | tbl (rows : List JobStat) (title : String)
deriving DecidableEq, Repr

/-- Mean of the `salary_usd` column (`df['salary_usd'].mean()`). -/
def meanSalary (rows : List Row) : ℚ :=
  ((rows.map (·.salary_usd)).sum : ℚ) / (rows.length : ℚ)

/-- Lexicographic `≤` on character lists by code point — Python's string
comparison, used by pandas when sorting group keys. -/
def lexLeChars : List Char → List Char → Bool
  | [], _ => true
  | _ :: _, [] => false
  | a :: as, b :: bs =>
    if a.toNat < b.toNat then true
    else if b.toNat < a.toNat then false
    else lexLeChars as bs

/-- Python's `a <= b` on strings. -/
def strLe (a b : String) : Bool := lexLeChars a.toList b.toList

/-- `strLe` as a relation, for the sorting lemmas. -/
def strLeRel (a b : String) : Prop := strLe a b = true

instance : DecidableRel strLeRel := fun a b =>
  inferInstanceAs (Decidable (strLe a b = true))

lemma lexLeChars_total : ∀ as bs, lexLeChars as bs = true ∨ lexLeChars bs as = true
  | [], _ => Or.inl rfl
  | _ :: _, [] => Or.inr rfl
  | a :: as, b :: bs => by
    unfold lexLeChars
    rcases Nat.lt_trichotomy a.toNat b.toNat with h | h | h
    · left
      rw [if_pos h]
    · rw [if_neg (by omega), if_neg (by omega), if_neg (by omega), if_neg (by omega)]
      exact lexLeChars_total as bs
    · right
      rw [if_pos h]

lemma lexLeChars_trans :
    ∀ as bs cs, lexLeChars as bs = true → lexLeChars bs cs = true →
      lexLeChars as cs = true
  | [], _, _, _, _ => rfl
  | a :: as, [], _, h, _ => by simp [lexLeChars] at h
  | _ :: _, _ :: _, [], _, h => by simp [lexLeChars] at h
  | a :: as, b :: bs, c :: cs, h1, h2 => by
    unfold lexLeChars at h1 h2 ⊢
    rcases Nat.lt_trichotomy a.toNat b.toNat with hab | hab | hab
    · rcases Nat.lt_trichotomy b.toNat c.toNat with hbc | hbc | hbc
      · rw [if_pos (by omega)]
      · rw [if_pos (by omega)]
      · rw [if_neg (by omega), if_pos hbc] at h2
        exact absurd h2 (by simp)
    · rcases Nat.lt_trichotomy b.toNat c.toNat with hbc | hbc | hbc
      · rw [if_pos (by omega)]
      · rw [if_neg (by omega), if_neg (by omega)]
        rw [if_neg (by omega), if_neg (by omega)] at h1 h2
        exact lexLeChars_trans as bs cs h1 h2
      · rw [if_neg (by omega), if_pos hbc] at h2
        exact absurd h2 (by simp)
    · rw [if_neg (by omega), if_pos hab] at h1
      exact absurd h1 (by simp)

instance : IsTotal String strLeRel := ⟨fun a b => lexLeChars_total a.toList b.toList⟩

instance : IsTrans String strLeRel :=
  ⟨fun a b c => lexLeChars_trans a.toList b.toList c.toList⟩

/-- The distinct values of a key column in the ascending order produced by
pandas `groupby(key)` (`sort=True` is the default). `insertionSort` is a
stable sort, and `dedup` keeps first occurrences. -/
def sortedKeys (l : List String) : List String :=
  List.insertionSort strLeRel l.dedup

/-- `df.groupby(key)[...].mean()` as (key, mean salary) pairs, keys
ascending. -/
def groupMeans (df : List Row) (key : Row → String) : List (String × ℚ) :=
  (sortedKeys (df.map key)).map fun k => (k, meanSalary (df.filter (fun r => key r == k)))

/-- `market_overview` (hello.py lines 227–241). -/
def market_overview (df : List Row) : Render :=
  if df.isEmpty then .txt "### 📊 Market Overview\nNo data matches current filters"
  else .stats df.length (meanSalary df) (df.map (·.company_location)).dedup.length

/-- Stable ascending sort of (label, mean) pairs by mean
(`sort_values('mean')`). -/
def sortByMean (l : List (String × ℚ)) : List (String × ℚ) :=
  List.insertionSort (fun a b => a.2 ≤ b.2) l

/-- `salary_by_experience_chart` (lines 243–280): per-experience-level mean
salaries, ascending by mean. -/
def salary_by_experience_chart (df : List Row) : Render :=
  if df.isEmpty then .txt "No data available for salary analysis"
  else .chart "salary_by_experience" (sortByMean (groupMeans df (·.experience_level)))

/-- `value_counts()` of a string column: (value, count) pairs, counts
descending, modelled as the reverse of a stable ascending sort over the
first-appearance order (the tie order of pandas `value_counts` is not
specified by the source). -/
def valueCounts (l : List String) : List (String × ℚ) :=
  (List.insertionSort (fun a b => a.2 ≤ b.2)
    (l.dedup.map fun k => (k, ((l.filter (fun x => x == k)).length : ℚ)))).reverse

/-- `top_locations_chart` (lines 282–310): top-10 locations by job count. -/
def top_locations_chart (df : List Row) : Render :=
  if df.isEmpty then .txt "No data available for location analysis"
  else .chart "top_locations" ((valueCounts (df.map (·.company_location))).take 10)

/-- `salary_distribution_chart` (lines 312–333): histogram over the raw
salary column (binning is chart styling). -/
def salary_distribution_chart (df : List Row) : Render :=
  if df.isEmpty then .txt "No data available for salary distribution"
  else .hist "salary_distribution" (df.map (·.salary_usd))

/-- `remote_ratio` → work-type label (`remote_mapping`); other ratios map
to no label (pandas `.map` yields NaN, excluded by `value_counts`). -/
def remoteLabel (n : Int) : Option String :=
  if n = 0 then some "On-site"
  else if n = 50 then some "Hybrid"
  else if n = 100 then some "Fully Remote"
  else none

/-- `remote_work_analysis` (lines 335–364).  The `remote_ratio` column is
not among the required columns, so it is passed as an optional column
(`none` models `'remote_ratio' not in df.columns`). -/
def remote_work_analysis (df : List Row) (remoteCol : Option (List Int)) : Render :=
  if df.isEmpty || remoteCol.isNone then .txt "No remote work data available"
  else .chart "remote_work"
    (valueCounts ((remoteCol.getD []).filterMap remoteLabel))

/-- `company_size` code → label (`size_mapping`). -/
def sizeLabel (c : String) : Option String :=
  if c = "S" then some "Small (<50)"
  else if c = "M" then some "Medium (50-250)"
  else if c = "L" then some "Large (>250)"
  else none

/-- `company_size_analysis` (lines 385–417): mean salary by mapped company
size label (rows whose size code maps to no label get a NaN label and are
dropped by `groupby`). -/
def company_size_analysis (df : List Row) : Render :=
  if df.isEmpty then .txt "No company size data available"
  else
    let labelled := df.filterMap fun r => (sizeLabel r.company_size).map fun lab => (lab, r)
    .chart "company_size"
      ((sortedKeys (labelled.map (·.1))).map fun k =>
        (k, meanSalary ((labelled.filter (fun p => p.1 == k)).map (·.2))))

/-- The distinct job titles ascending, as produced by
`df.groupby('job_title')` (`sort=True` default). -/
def sortedTitles (df : List Row) : List String :=
  sortedKeys (df.map (·.job_title))

/-- The aggregated `job_stats` frame of `top_job_titles_table` (lines
373–378): one row per job title (ascending), with the group size as
`'Total Postings'` and the group mean salary as `'Avg Salary'`. -/
def job_stats (df : List Row) : List JobStat :=
  (sortedTitles df).map fun t =>
    let g := df.filter (fun r => r.job_title == t)
    ⟨t, g.length, meanSalary g⟩

/-- The comparison used by `sort_values('Total Postings', ...)`. -/
def postLE (a b : JobStat) : Prop := a.totalPostings ≤ b.totalPostings

instance : DecidableRel postLE := fun a b => Nat.decLe a.totalPostings b.totalPostings

/-- `job_stats.sort_values('Total Postings', ascending=False).head(10)`.
pandas implements a descending `sort_values` as the reverse of an ascending
argsort (`nargsort`); with the default `kind='quicksort'` the relative
order of rows tied on the key is unspecified (numpy's introsort is stable
only below its small-array insertion-sort threshold).  The embedding
determinizes the sort as a stable `insertionSort` followed by `reverse`,
then takes the first 10 rows; no universal theorem below depends on this
tie-order choice — only the concrete two-group counterexample evaluates a
tie, an input size at which the model coincides with the program. -/
def top_job_titles (df : List Row) : List JobStat :=
  ((List.insertionSort postLE (job_stats df)).reverse).take 10

/-- `top_job_titles_table` (lines 366–383). -/
def top_job_titles_table (df : List Row) : Render :=
  if df.isEmpty then .tbl [] "Top Job Titles - No Data"
  else .tbl (top_job_titles df) "Top 10 Most In-Demand AI Job Titles"

/-- C3: whenever no row survives filtering, every downstream consumer
completes (all consumers are total functions) and renders its "no data"
presentation: the overview, the three salary/location charts, the remote
and company-size analyses, and the empty top-job-titles table. -/
theorem empty_filter_yields_no_data (df : List Row) (e l : String) (m : Int)
    (h : get_filtered_data df e l m = []) :
    market_overview (get_filtered_data df e l m) =
        .txt "### 📊 Market Overview\nNo data matches current filters"
    ∧ salary_by_experience_chart (get_filtered_data df e l m) =
        .txt "No data available for salary analysis"
    ∧ top_locations_chart (get_filtered_data df e l m) =
        .txt "No data available for location analysis"
    ∧ salary_distribution_chart (get_filtered_data df e l m) =
        .txt "No data available for salary distribution"
    ∧ (∀ remoteCol, remote_work_analysis (get_filtered_data df e l m) remoteCol =
        .txt "No remote work data available")
    ∧ company_size_analysis (get_filtered_data df e l m) =
        .txt "No company size data available"
    ∧ top_job_titles_table (get_filtered_data df e l m) =
        .tbl [] "Top Job Titles - No Data" := by
  rw [h]
  exact ⟨rfl, rfl, rfl, rfl, fun _ => rfl, rfl, rfl⟩

theorem empty_filter_yields_no_data_witness :
    market_overview (get_filtered_data sampleDf "All" "All" 1000000000) =
        .txt "### 📊 Market Overview\nNo data matches current filters"
    ∧ salary_by_experience_chart (get_filtered_data sampleDf "All" "All" 1000000000) =
        .txt "No data available for salary analysis"
    ∧ top_locations_chart (get_filtered_data sampleDf "All" "All" 1000000000) =
        .txt "No data available for location analysis"
    ∧ salary_distribution_chart (get_filtered_data sampleDf "All" "All" 1000000000) =
        .txt "No data available for salary distribution"
    ∧ (∀ remoteCol, remote_work_analysis (get_filtered_data sampleDf "All" "All" 1000000000)
          remoteCol = .txt "No remote work data available")
    ∧ company_size_analysis (get_filtered_data sampleDf "All" "All" 1000000000) =
        .txt "No company size data available"
    ∧ top_job_titles_table (get_filtered_data sampleDf "All" "All" 1000000000) =
        .tbl [] "Top Job Titles - No Data" :=
  empty_filter_yields_no_data sampleDf "All" "All" 1000000000 (by decide)

/-! ## Order properties of the top-10 job-title extraction -/

instance : IsTotal JobStat postLE :=
  ⟨fun a b => Nat.le_total a.totalPostings b.totalPostings⟩

instance : IsTrans JobStat postLE :=
  ⟨fun _ _ _ hab hbc => Nat.le_trans hab hbc⟩

/-- C4 (amended): the extraction of `top_job_titles_table` is a global
top-K over all job-title groups with K = 10: it returns at most 10 rows,
sorted descending by `'Total Postings'`; every returned row is one of the
job-title groups computed over the whole filtered dataset, and when there
are at most 10 groups, all of them are returned.  Being a function of the
dataset, identical input yields identical output.  No conjunct constrains
the relative order of rows tied on the count: the code applies no tie-break
key and its underlying sort leaves the tie order unspecified. -/
theorem top_job_titles_topk (df : List Row) :
    (top_job_titles df).length ≤ 10
    ∧ (top_job_titles df).Pairwise
        (fun a b => b.totalPostings ≤ a.totalPostings)
    ∧ (∀ s ∈ top_job_titles df, s ∈ job_stats df)
    ∧ ((job_stats df).length ≤ 10 → (top_job_titles df).Perm (job_stats df)) := by
  have hsorted : ((List.insertionSort postLE (job_stats df)).reverse).Pairwise
      (fun a b => b.totalPostings ≤ a.totalPostings) := by
    rw [List.pairwise_reverse]
    exact List.sorted_insertionSort postLE (job_stats df)
  have hperm : ((List.insertionSort postLE (job_stats df)).reverse).Perm
      (job_stats df) :=
    (List.reverse_perm _).trans (List.perm_insertionSort postLE (job_stats df))
  refine ⟨List.length_take_le 10 _,
    hsorted.sublist (List.take_sublist 10 _), fun s hs => ?_, fun hlen => ?_⟩
  · exact hperm.mem_iff.mp ((List.take_sublist 10 _).mem hs)
  · have hfull : ((List.insertionSort postLE (job_stats df)).reverse).take 10 =
        (List.insertionSort postLE (job_stats df)).reverse :=
      List.take_of_length_le (by rw [hperm.length_eq]; exact hlen)
    unfold top_job_titles
    rw [hfull]
    exact hperm

/-- C4 counterexample: on a dataset with two job titles tied at one posting
each, the extracted rows appear in descending title order
(`["ML Engineer", "Data Scientist"]`), not ascending as the claimed
documented ascending tie-break would require.  At this size the embedded
sort coincides with the program: pandas reverses the ascending argsort, and
below numpy's small-array threshold that argsort is an insertion sort,
which keeps the tied groups in their ascending `groupby` key order before
the reversal. -/
theorem top_job_titles_tie_descending :
    (top_job_titles sampleDf).map (fun s => s.title) = ["ML Engineer", "Data Scientist"]
    ∧ (top_job_titles sampleDf).map (fun s => s.totalPostings) = [1, 1]
    ∧ strLe "Data Scientist" "ML Engineer" = true
    ∧ ("Data Scientist" : String) ≠ "ML Engineer" := by
  refine ⟨by decide, by decide, by decide, by decide⟩

/-! ## The stock-market analytics core, modelled from the spec

The specification's Rolling Statistics Engine and Change & Ranking Engine
(§4.2, §4.3) belong to the stock-market dashboard variants, whose scripts
are not among the sources; they are modelled here from the specification
text. -/

/-- Modelled from the spec: an `Observation` of the time-series analytics
core (§3).  `timestamp` is a day-granularity date modelled as an integer
day number; `value` is a finite real modelled as `ℚ`. -/
structure Obs where
  entity_key : String
  secondary_key : String
  timestamp : Int
  value : ℚ
deriving DecidableEq, Repr, Inhabited

/-- Modelled from the spec: `EnrichedObservation` (§3) — an `Obs` plus the
optional derived fields.  `rolling_var` carries the square of the spec's
`rolling_std` (the sample variance); the bands `rolling_mean ± 2·std` add
nothing to the window claims settled here. -/
structure EnrichedObs extends Obs where
  daily_change_pct : Option ℚ
  rolling_mean : Option ℚ
  rolling_var : Option ℚ
deriving DecidableEq, Repr, Inhabited

/-- The lower end `max (0, i-w+1)` of the trailing window at index `i`
(truncated subtraction). -/
def windowLo (w i : Nat) : Nat := i + 1 - w

/-- Modelled from the spec (§4.2): the trailing, causal window at index
`i` — the observations of `S` at indices `[max (0, i-w+1), i]`. -/
def windowSlice (w : Nat) (S : List Obs) (i : Nat) : List Obs :=
  (S.take (i + 1)).drop (windowLo w i)

/-- Modelled from the spec (§4.2): sample variance (divide by `n - 1`),
defined as `0` for a single-point window. -/
def sampleVar (vals : List ℚ) : ℚ :=
  if vals.length ≤ 1 then 0
  else ((vals.map fun v => (v - vals.sum / vals.length) ^ 2).sum) /
    ((vals.length : ℚ) - 1)

/-- Modelled from the spec (§4.2): the Rolling Statistics Engine — for
every index of the series, the mean and sample variance over the trailing
window, with minimum periods 1 (every index receives statistics). -/
def rollingStats (w : Nat) (S : List Obs) : List EnrichedObs :=
  S.mapIdx fun i o =>
    let vals := (windowSlice w S i).map (·.value)
    ⟨o, none, some (vals.sum / vals.length), some (sampleVar vals)⟩

lemma windowSlice_length (S : List Obs) (w i : Nat) (hw : 1 ≤ w)
    (hi : i < S.length) :
    (windowSlice w S i).length = min (i + 1) w := by
  unfold windowSlice windowLo
  rw [List.length_drop, List.length_take]
  omega

lemma windowSlice_eq_map_range' (S : List Obs) (w i : Nat) (hw : 1 ≤ w)
    (hi : i < S.length) :
    windowSlice w S i =
      (List.range' (windowLo w i) (min (i + 1) w)).map fun j => S.getD j default := by
  apply List.ext_getElem?
  intro k
  rw [windowSlice, List.getElem?_drop, List.getElem?_take, List.getElem?_map]
  by_cases hk : k < min (i + 1) w
  · have h1 : windowLo w i + k < i + 1 := by unfold windowLo; omega
    have h2 : windowLo w i + k < S.length := by omega
    rw [if_pos h1, List.getElem?_range' _ _ (by omega)]
    have h5 : windowLo w i + 1 * k = windowLo w i + k := by omega
    rw [h5, List.getElem?_eq_getElem h2, Option.map_some',
      List.getD_eq_getElem _ _ h2]
  · have h1 : ¬ windowLo w i + k < i + 1 := by unfold windowLo; omega
    have h2 : ¬ k < (List.range' (windowLo w i) (min (i + 1) w)).length := by
      rw [List.length_range']; omega
    rw [if_neg h1, List.getElem?_eq_none (by omega), Option.map_none']

lemma windowSlice_timestamp_le (S : List Obs) (w i : Nat)
    (hsorted : S.Pairwise fun a b => a.timestamp ≤ b.timestamp)
    (hi : i < S.length) :
    ∀ o ∈ windowSlice w S i, o.timestamp ≤ (S.getD i default).timestamp := by
  intro o ho
  have ho' : o ∈ S.take (i + 1) := List.mem_of_mem_drop ho
  obtain ⟨k, hk, hko⟩ := List.getElem_of_mem ho'
  have hk1 : k < i + 1 := by
    rw [List.length_take] at hk; omega
  have hk2 : k < S.length := by
    rw [List.length_take] at hk; omega
  have hko' : S[k] = o := by
    rw [← hko, List.getElem_take]
  rw [List.getD_eq_getElem _ _ hi, ← hko']
  rcases Nat.lt_or_ge k i with hlt | hge
  · exact (List.pairwise_iff_getElem.mp hsorted) k i hk2 hi hlt
  · have : k = i := by omega
    subst this
    exact le_refl _

lemma rollingStats_getD (S : List Obs) (w i : Nat) (hi : i < S.length) :
    (rollingStats w S).getD i default =
      ⟨S.getD i default, none,
        some (((windowSlice w S i).map (·.value)).sum /
          (((windowSlice w S i).map (·.value)).length : ℚ)),
        some (sampleVar ((windowSlice w S i).map (·.value)))⟩ := by
  have hlen : i < (rollingStats w S).length := by
    unfold rollingStats; rw [List.length_mapIdx]; exact hi
  rw [List.getD_eq_getElem _ _ hlen, List.getD_eq_getElem _ _ hi]
  simp only [rollingStats, List.getElem_mapIdx]

/-- C5 (spec-modelled): the Rolling Statistics Engine output has the length
of its input series; at every index `i` the statistics are computed over
exactly the window of indices `[max (0, i-w+1), i]`, which holds exactly
`min (i+1) w` observations, all with timestamp at most that of `S[i]`
(never a later one); and no index is left without statistics — every output
row carries `some` mean and `some` variance. -/
theorem rollingStats_window_spec (S : List Obs) (w : Nat) (hw : 1 ≤ w)
    (hsorted : S.Pairwise fun a b => a.timestamp ≤ b.timestamp) :
    (rollingStats w S).length = S.length
    ∧ ∀ i, i < S.length →
        (windowSlice w S i).length = min (i + 1) w
        ∧ windowSlice w S i =
            (List.range' (windowLo w i) (min (i + 1) w)).map (fun j => S.getD j default)
        ∧ (∀ o ∈ windowSlice w S i, o.timestamp ≤ (S.getD i default).timestamp)
        ∧ (rollingStats w S).getD i default =
            ⟨S.getD i default, none,
              some (((windowSlice w S i).map (·.value)).sum /
                (((windowSlice w S i).map (·.value)).length : ℚ)),
              some (sampleVar ((windowSlice w S i).map (·.value)))⟩ := by
  refine ⟨by unfold rollingStats; rw [List.length_mapIdx], fun i hi => ?_⟩
  exact ⟨windowSlice_length S w i hw hi, windowSlice_eq_map_range' S w i hw hi,
    windowSlice_timestamp_le S w i hsorted hi, rollingStats_getD S w i hi⟩

/-- A three-point single-entity series for instantiating the analytics
theorems. -/
def stockSample : List Obs :=
  [⟨"NASDAQ", "AAPL", 0, 100⟩, ⟨"NASDAQ", "AAPL", 1, 110⟩, ⟨"NASDAQ", "AAPL", 2, 99⟩]

theorem rollingStats_window_spec_witness :
    (rollingStats 2 stockSample).length = stockSample.length
    ∧ (windowSlice 2 stockSample 2).length = min 3 2
    ∧ (∀ o ∈ windowSlice 2 stockSample 2,
        o.timestamp ≤ (stockSample.getD 2 default).timestamp) := by
  have h := rollingStats_window_spec stockSample 2 (by decide) (by decide)
  exact ⟨h.1, (h.2 2 (by decide)).1, (h.2 2 (by decide)).2.2.1⟩

/-- Modelled from the spec (§4.3): `daily_change_pct` over the value
sequence of a Series — undefined (`none`, never an infinity or NaN) at
index 0 and wherever the previous value is 0, otherwise
`(value[i] - value[i-1]) / value[i-1] * 100`. -/
def daily_change_pct (s : List ℚ) : List (Option ℚ) :=
  (List.range s.length).map fun i =>
    if i = 0 then none
    else if s.getD (i - 1) 0 = 0 then none
    else some ((s.getD i 0 - s.getD (i - 1) 0) / s.getD (i - 1) 0 * 100)

/-- C6 (spec-modelled): `daily_change_pct` preserves the series length; it
is `none` at index 0 and at every index whose previous value is zero (a
total computation — no exception, no infinity), and equals
`(value[i] - value[i-1]) / value[i-1] * 100` exactly when `i ≥ 1` and the
previous value is nonzero. -/
theorem daily_change_pct_spec (s : List ℚ) :
    (daily_change_pct s).length = s.length
    ∧ (0 < s.length → (daily_change_pct s).getD 0 none = none)
    ∧ ∀ i, 1 ≤ i → i < s.length →
        (s.getD (i - 1) 0 = 0 → (daily_change_pct s).getD i none = none)
        ∧ (s.getD (i - 1) 0 ≠ 0 →
            (daily_change_pct s).getD i none =
              some ((s.getD i 0 - s.getD (i - 1) 0) / s.getD (i - 1) 0 * 100)) := by
  have hlen : (daily_change_pct s).length = s.length := by
    unfold daily_change_pct
    rw [List.length_map, List.length_range]
  have hbody : ∀ i, i < s.length →
      (daily_change_pct s).getD i none =
        (if i = 0 then none
         else if s.getD (i - 1) 0 = 0 then none
         else some ((s.getD i 0 - s.getD (i - 1) 0) / s.getD (i - 1) 0 * 100)) := by
    intro i hi
    have hi' : i < (daily_change_pct s).length := by rw [hlen]; exact hi
    rw [List.getD_eq_getElem _ _ hi']
    simp only [daily_change_pct, List.getElem_map, List.getElem_range]
  refine ⟨hlen, fun h0 => ?_, fun i h1 hi => ⟨fun hz => ?_, fun hnz => ?_⟩⟩
  · rw [hbody 0 h0]
    rfl
  · rw [hbody i hi, if_neg (by omega), if_pos hz]
  · rw [hbody i hi, if_neg (by omega), if_neg hnz]

theorem daily_change_pct_spec_witness :
    (daily_change_pct [(0 : ℚ), 5]).getD 1 none = none
    ∧ (daily_change_pct [(100 : ℚ), 110, 99]).getD 0 none = none
    ∧ (daily_change_pct [(100 : ℚ), 110, 99]).getD 1 none = some 10
    ∧ (daily_change_pct [(100 : ℚ), 110, 99]).getD 2 none = some (-10) := by
  refine ⟨?_, ?_, ?_, ?_⟩
  · exact ((daily_change_pct_spec [0, 5]).2.2 1 le_rfl (by decide)).1 (by decide)
  · exact (daily_change_pct_spec [100, 110, 99]).2.1 (by decide)
  · rw [((daily_change_pct_spec [100, 110, 99]).2.2 1 le_rfl (by decide)).2 (by decide)]
    simp only [List.getD_cons_zero, List.getD_cons_succ]
    norm_num
  · rw [((daily_change_pct_spec [100, 110, 99]).2.2 2 (by decide) (by decide)).2 (by decide)]
    norm_num [List.getD_cons_zero, List.getD_cons_succ]

/-! ## Aliasing discipline of `get_filtered_data` (frame effects)

Reference semantics: a heap of dataframes (lists of rows), references are
heap indices.  `get_filtered_data` does `df.copy()` and each boolean-mask
selection allocates a fresh frame, so the frame it returns is a fresh
allocation, never an alias of the loaded frame. -/

/-- `get_filtered_data` over the heap: reads the loaded frame at `ref`,
allocates the copy and the filtered result, and returns the new heap with
the reference to the result. -/
def gfdHeap (h : List (List Row)) (ref : Nat) (e l : String) (m : Int) :
    List (List Row) × Nat :=
  (h ++ [h.getD ref [], get_filtered_data (h.getD ref []) e l m], h.length + 1)

/-- An in-place mutation of the frame at `ref` by a consumer (e.g.
`df['remote_label'] = ...` in `remote_work_analysis`), modelled as an
arbitrary replacement of that frame's contents. -/
def setDf (h : List (List Row)) (ref : Nat) (rows : List Row) : List (List Row) :=
  h.set ref rows

/-- C7: filtering leaves the loaded dataset untouched and returns a fresh
frame: after `gfdHeap`, the frame at the original reference is unchanged,
the returned reference holds exactly the filtered rows, and any consumer
mutation of the returned frame leaves the loaded frame unchanged. -/
theorem get_filtered_data_no_frame_effect (h : List (List Row)) (ref : Nat)
    (e l : String) (m : Int) (href : ref < h.length) :
    ((gfdHeap h ref e l m).1).getD ref [] = h.getD ref []
    ∧ ((gfdHeap h ref e l m).1).getD (gfdHeap h ref e l m).2 [] =
        get_filtered_data (h.getD ref []) e l m
    ∧ ∀ rows, (setDf (gfdHeap h ref e l m).1 (gfdHeap h ref e l m).2 rows).getD
        ref [] = h.getD ref [] := by
  refine ⟨?_, ?_, fun rows => ?_⟩
  · unfold gfdHeap
    rw [List.getD_append _ _ _ _ href]
  · unfold gfdHeap
    rw [List.getD_append_right _ _ _ _ (Nat.le_add_right _ _)]
    have hone : h.length + 1 - h.length = 1 := by omega
    rw [hone]
    rfl
  · unfold gfdHeap setDf
    rw [List.getD_eq_getElem?_getD, List.getElem?_set_ne (by omega),
      ← List.getD_eq_getElem?_getD, List.getD_append _ _ _ _ href]

theorem get_filtered_data_no_frame_effect_witness :
    (((gfdHeap [sampleDf] 0 "All" "All" 100000).1).getD 0 [] = [sampleDf].getD 0 [])
    ∧ (∀ rows, (setDf (gfdHeap [sampleDf] 0 "All" "All" 100000).1
        (gfdHeap [sampleDf] 0 "All" "All" 100000).2 rows).getD 0 [] =
          [sampleDf].getD 0 []) :=
  ⟨(get_filtered_data_no_frame_effect [sampleDf] 0 "All" "All" 100000
      (by decide)).1,
   (get_filtered_data_no_frame_effect [sampleDf] 0 "All" "All" 100000
      (by decide)).2.2⟩

/-! ## `load_data`: column completion, salary cleaning, exception fallback

Model of `load_data` at the column level: a raw dataframe is a declared
column list plus rows as association lists of cells.  The raw frame stands
for whatever the acquisition produced (a CSV path hit, `get_df`, or the
synthesized sample — every acquisition path yields some raw frame), and a
flag models an exception raised anywhere inside the `try`, whose handler
returns the minimal fallback frame.  On no path does `load_data` raise or
return `None`: it is a total function into dataframes. -/

/-- A dataframe cell: an integer, a string, or a missing/NaN value. -/
inductive Val where
  | i (n : Int)
  | s (v : String)
  | null
deriving DecidableEq, Repr

/-- A raw dataframe: declared columns, rows as association lists. -/
structure Df where
  cols : List String
  rows : List (List (String × Val))
deriving DecidableEq, Repr

/-- The `required_columns` list of `load_data` (lines 112–113). -/
def required_columns : List String :=
  ["job_id", "job_title", "salary_usd", "experience_level",
   "employment_type", "company_location", "company_size"]

/-- The default a missing required column is filled with (lines 115–123). -/
def defaultVal (c : String) : Val :=
  if c = "salary_usd" then .i 100000
  else if c = "experience_level" then .s "MI"
  else .s "Unknown"

/-- `df_raw[col] = default`: a new column appended with one value for every
row. -/
def addCol (df : Df) (c : String) (v : Val) : Df :=
  ⟨df.cols ++ [c], df.rows.map fun r => r ++ [(c, v)]⟩

/-- The loop `for col in required_columns: if col not in df_raw.columns:
df_raw[col] = default`. -/
def fillCols : List String → Df → Df
  | [], df => df
  | c :: cs, df =>
    fillCols cs (if c ∈ df.cols then df else addCol df c (defaultVal c))

/-- `df_raw.dropna(subset=['salary_usd'])` on one row. -/
def notNullSalary (r : List (String × Val)) : Bool :=
  match r.lookup "salary_usd" with
  | some .null => false
  | some _ => true
  | none => false

/-- `df_clean['salary_usd'] > 0` on one row (a non-integer salary cell
would raise in pandas, which the exception path models; the predicate is
only reached on numeric cells). -/
def posSalary (r : List (String × Val)) : Bool :=
  match r.lookup "salary_usd" with
  | some (.i n) => decide (0 < n)
  | _ => false

/-- Lines 125–127: drop null salaries, then keep positive salaries. -/
def clean_data (df : Df) : Df :=
  ⟨df.cols, (df.rows.filter notNullSalary).filter posSalary⟩

/-- The minimal sample frame returned by the `except` handler
(lines 134–143). -/
def fallback_df : Df :=
  ⟨required_columns,
   [[("job_id", .s "AI001"), ("job_title", .s "Data Scientist"),
     ("salary_usd", .i 100000), ("experience_level", .s "MI"),
     ("employment_type", .s "FT"), ("company_location", .s "United States"),
     ("company_size", .s "M")]]⟩

/-- `load_data` (lines 26–143): complete the required columns and clean, or
return the fallback frame when anything inside the `try` raised. -/
def load_data (raw : Df) (fail : Bool) : Df :=
  if fail then fallback_df else clean_data (fillCols required_columns raw)

/-- Well-formedness of a raw frame: every cell's key is a declared
column. -/
def DfWF (df : Df) : Prop := ∀ r ∈ df.rows, ∀ p ∈ r, p.1 ∈ df.cols

instance (df : Df) : Decidable (DfWF df) := by
  unfold DfWF; infer_instance

lemma fillCols_cols_mono :
    ∀ (cs : List String) (df : Df), df.cols ⊆ (fillCols cs df).cols
  | [], _ => fun _ h => h
  | c :: cs, df => by
    unfold fillCols
    by_cases hc : c ∈ df.cols
    · rw [if_pos hc]
      exact fillCols_cols_mono cs df
    · rw [if_neg hc]
      intro x hx
      exact fillCols_cols_mono cs _ (List.mem_append_left _ hx)

lemma fillCols_cols_covers :
    ∀ (cs : List String) (df : Df) (c : String), c ∈ cs → c ∈ (fillCols cs df).cols
  | [], _, _, h => absurd h (List.not_mem_nil _)
  | c' :: cs, df, c, h => by
    unfold fillCols
    by_cases hc' : c' ∈ df.cols
    · rw [if_pos hc']
      rcases List.mem_cons.mp h with rfl | hcs
      · exact fillCols_cols_mono cs df hc'
      · exact fillCols_cols_covers cs df c hcs
    · rw [if_neg hc']
      rcases List.mem_cons.mp h with rfl | hcs
      · exact fillCols_cols_mono cs _ (List.mem_append_right _ (List.mem_singleton_self c))
      · exact fillCols_cols_covers cs _ c hcs

lemma lookup_append_single_ne (c c' : String) (v : Val) (hne : c ≠ c') :
    ∀ r : List (String × Val), (r ++ [(c', v)]).lookup c = r.lookup c
  | [] => by
    have hb : (c == c') = false := beq_eq_false_iff_ne.mpr hne
    simp [List.lookup, hb]
  | (k, w) :: r => by
    cases hk : (c == k)
    · simp [List.lookup, hk, lookup_append_single_ne c c' v hne r]
    · simp [List.lookup, hk]

lemma lookup_eq_none_of_keys_ne (c : String) :
    ∀ r : List (String × Val), (∀ p ∈ r, p.1 ≠ c) → r.lookup c = none
  | [], _ => rfl
  | (k, w) :: r, h => by
    have hb : (c == k) = false :=
      beq_eq_false_iff_ne.mpr fun hck => h (k, w) (List.mem_cons_self _ _) hck.symm
    simp only [List.lookup, hb]
    exact lookup_eq_none_of_keys_ne c r fun p hp => h p (List.mem_cons_of_mem _ hp)

lemma lookup_append_single_eq (c : String) (v : Val)
    (r : List (String × Val)) (hr : r.lookup c = none) :
    (r ++ [(c, v)]).lookup c = some v := by
  induction r with
  | nil => simp [List.lookup]
  | cons p r ih =>
    obtain ⟨k, w⟩ := p
    cases hk : (c == k)
    · simp only [List.lookup, hk] at hr
      simp only [List.cons_append, List.lookup, hk]
      exact ih hr
    · simp only [List.lookup, hk] at hr
      exact absurd hr (by simp)

lemma addCol_wf (df : Df) (c : String) (v : Val) (hwf : DfWF df) :
    DfWF (addCol df c v) := by
  intro r hr p hp
  unfold addCol at hr ⊢
  obtain ⟨r0, hr0, rfl⟩ := List.mem_map.mp hr
  rcases List.mem_append.mp hp with hp0 | hp1
  · exact List.mem_append_left _ (hwf r0 hr0 p hp0)
  · rcases List.mem_singleton.mp hp1 with rfl
    exact List.mem_append_right _ (List.mem_singleton_self c)

lemma fillCols_lookup_preserved :
    ∀ (cs : List String) (df : Df) (c : String) (v : Val),
      DfWF df → c ∈ df.cols →
      (∀ r ∈ df.rows, r.lookup c = some v) →
      ∀ r ∈ (fillCols cs df).rows, r.lookup c = some v
  | [], df, c, v, _, _, hall => hall
  | c' :: cs, df, c, v, hwf, hcin, hall => by
    unfold fillCols
    by_cases hc' : c' ∈ df.cols
    · rw [if_pos hc']
      exact fillCols_lookup_preserved cs df c v hwf hcin hall
    · rw [if_neg hc']
      have hne : c ≠ c' := fun h => hc' (h ▸ hcin)
      refine fillCols_lookup_preserved cs _ c v (addCol_wf df c' _ hwf)
        (List.mem_append_left _ hcin) ?_
      intro r hr
      obtain ⟨r0, hr0, rfl⟩ := List.mem_map.mp hr
      rw [lookup_append_single_ne c c' _ hne r0]
      exact hall r0 hr0

lemma fillCols_lookup_default :
    ∀ (cs : List String) (df : Df) (c : String),
      DfWF df → c ∈ cs → c ∉ df.cols →
      ∀ r ∈ (fillCols cs df).rows, r.lookup c = some (defaultVal c)
  | [], _, c, _, hc, _ => absurd hc (List.not_mem_nil c)
  | c' :: cs, df, c, hwf, hc, hnc => by
    unfold fillCols
    by_cases hc' : c' ∈ df.cols
    · rw [if_pos hc']
      have hcs : c ∈ cs := by
        rcases List.mem_cons.mp hc with rfl | h
        · exact absurd hc' hnc
        · exact h
      exact fillCols_lookup_default cs df c hwf hcs hnc
    · rw [if_neg hc']
      by_cases hcc : c = c'
      · subst hcc
        refine fillCols_lookup_preserved cs _ c (defaultVal c) (addCol_wf df c _ hwf)
          (List.mem_append_right _ (List.mem_singleton_self c)) ?_
        intro r hr
        obtain ⟨r0, hr0, rfl⟩ := List.mem_map.mp hr
        refine lookup_append_single_eq c _ r0 ?_
        exact lookup_eq_none_of_keys_ne c r0
          (fun p hp hpc => hnc (hpc ▸ hwf r0 hr0 p hp))
      · have hcs : c ∈ cs := by
          rcases List.mem_cons.mp hc with h | h
          · exact absurd h hcc
          · exact h
        refine fillCols_lookup_default cs _ c (addCol_wf df c' _ hwf) hcs ?_
        intro hmem
        rcases List.mem_append.mp hmem with h | h
        · exact hnc h
        · exact hcc (List.mem_singleton.mp h)

/-- C8: on every execution path — raw frame obtained from a CSV file,
`get_df`, or the synthesized sample, as well as the internal-exception
path — `load_data` returns a dataframe (never raises to its caller, never
returns `None`) in which all seven required columns are present; on the
non-exception path a missing required column is filled with its default
value in every surviving row. -/
theorem load_data_required_columns (raw : Df) (fail : Bool) :
    (∀ c ∈ required_columns, c ∈ (load_data raw fail).cols)
    ∧ (fail = false → DfWF raw →
        ∀ c ∈ required_columns, c ∉ raw.cols →
          ∀ r ∈ (load_data raw fail).rows, r.lookup c = some (defaultVal c)) := by
  have hfalse : ∀ d : Df, load_data d false = clean_data (fillCols required_columns d) :=
    fun d => rfl
  have htrue : ∀ d : Df, load_data d true = fallback_df := fun d => rfl
  have hcols : ∀ d : Df, (clean_data d).cols = d.cols := fun d => rfl
  have hrows : ∀ d : Df,
      (clean_data d).rows = (d.rows.filter notNullSalary).filter posSalary :=
    fun d => rfl
  constructor
  · intro c hc
    cases fail
    · rw [hfalse, hcols]
      exact fillCols_cols_covers required_columns raw c hc
    · rw [htrue]
      exact hc
  · rintro rfl hwf c hc hnc r hr
    rw [hfalse, hrows] at hr
    have hr' : r ∈ (fillCols required_columns raw).rows :=
      List.mem_of_mem_filter (List.mem_of_mem_filter hr)
    exact fillCols_lookup_default required_columns raw c hwf hc hnc r hr'

/-- A raw frame missing every required column except `job_id`. -/
def rawThin : Df := ⟨["job_id"], [[("job_id", Val.s "X1")]]⟩

theorem load_data_required_columns_witness :
    ("salary_usd" ∈ (load_data rawThin false).cols)
    ∧ (∀ r ∈ (load_data rawThin false).rows,
        r.lookup "salary_usd" = some (defaultVal "salary_usd")) :=
  ⟨(load_data_required_columns rawThin false).1 "salary_usd" (by decide),
   fun r hr => (load_data_required_columns rawThin false).2 rfl (by decide)
     "salary_usd" (by decide) (by decide) r hr⟩

/-- C2 (amended): the cleaning step of `load_data` keeps exactly the rows
whose salary cell is a positive number: rows with a null/missing salary
*and also* rows with a non-positive finite salary are excluded before any
analysis; the exclusion is a total computation (never an error).  No
`dropped_invalid_rows` counter exists — `load_data` only prints the count
of the rows it kept. -/
theorem clean_data_keeps_iff (df : Df) :
    ∀ r, r ∈ (clean_data df).rows ↔
      r ∈ df.rows ∧ ∃ n : Int, r.lookup "salary_usd" = some (.i n) ∧ 0 < n := by
  intro r
  unfold clean_data
  simp only [List.mem_filter, Bool.and_eq_true]
  constructor
  · rintro ⟨⟨hmem, hnn⟩, hpos⟩
    refine ⟨hmem, ?_⟩
    unfold posSalary at hpos
    rcases hlk : r.lookup "salary_usd" with - | v
    · rw [hlk] at hpos
      exact absurd hpos (by simp)
    · rcases v with n | s | -
      · rw [hlk] at hpos
        exact ⟨n, rfl, by simpa using hpos⟩
      · rw [hlk] at hpos
        exact absurd hpos (by simp)
      · rw [hlk] at hpos
        exact absurd hpos (by simp)
  · rintro ⟨hmem, n, hlk, hn⟩
    refine ⟨⟨hmem, ?_⟩, ?_⟩
    · unfold notNullSalary
      rw [hlk]
    · unfold posSalary
      rw [hlk]
      simpa using hn

theorem clean_data_keeps_iff_witness :
    [("salary_usd", Val.i 5)] ∈
        (clean_data (Df.mk ["salary_usd"] [[("salary_usd", Val.i 5)]])).rows ↔
      [("salary_usd", Val.i 5)] ∈
          (Df.mk ["salary_usd"] [[("salary_usd", Val.i 5)]]).rows ∧
        ∃ n : Int, [("salary_usd", Val.i 5)].lookup "salary_usd" = some (.i n) ∧
          0 < n :=
  clean_data_keeps_iff (Df.mk ["salary_usd"] [[("salary_usd", Val.i 5)]])
    [("salary_usd", Val.i 5)]

/-- C2 counterexample: a row whose salary is the finite value `0` — by the
claim it must be kept (only null/non-finite rows are excluded), yet the
cleaning step drops it. -/
theorem clean_data_drops_finite_zero :
    [("salary_usd", Val.i 0)] ∈ (Df.mk ["salary_usd"] [[("salary_usd", Val.i 0)]]).rows
    ∧ ([("salary_usd", Val.i 0)].lookup "salary_usd" = some (Val.i 0))
    ∧ (clean_data (Df.mk ["salary_usd"] [[("salary_usd", Val.i 0)]])).rows = [] := by
  refine ⟨by decide, by decide, by decide⟩

end AIJobs
